import Mathlib

/-!
Verification of the log-path resolution snippet in
`src/pesapal_service_fix.py` (the replacement for the `log_path`
initialization of `PesapalService.__init__`).

The snippet is embedded shallowly:

* the process environment (`os.name`, `TEMP`, the working directory and
  `PESAPAL_LOG_PATH`) becomes the structure `Env`;
* the file system becomes the structure `Fs`: the set of directories that
  currently exist plus a predicate saying whether `os.makedirs` on a given
  path would succeed; `makedirs` models `os.makedirs(d, exist_ok=True)`
  as an atomic step that either succeeds (returning the updated file
  system) or raises (returning `none`) leaving the file system unchanged;
* `os.path.dirname` and `os.path.join` are modelled for both the POSIX
  (`posixpath`) and the Windows (`ntpath`) flavour, selected by
  `os.name == "nt"` exactly as CPython does; the `ntpath` model covers
  drive-letter paths but not UNC device paths, and its `join` covers
  second arguments that carry no drive letter (the snippet only ever
  joins the drive-free literals `pesapal_logs` and `pesapal.log`);
* the whole snippet (lines 16-31 of the source) becomes `resolve`,
  returning the final `log_path` (or `none` when the exception
  propagates) together with the resulting file system.
-/

namespace PesapalFix

/-- Model of Python `s.startswith(pre)` (source line 27:
`log_path.startswith('/tmp')`). -/
def strStartsWith (s pre : String) : Bool :=
  pre.toList.isPrefixOf s.toList

/-- The separator test of `ntpath`: both the backslash and the slash. -/
def isNtSep (c : Char) : Bool :=
  c = '\\' || c = '/'

/-- Model of `ntpath.splitdrive` for drive-letter paths (UNC device paths
are not modelled; the source never builds one). -/
def ntSplitDrive (cs : List Char) : List Char × List Char :=
  match cs with
  | c0 :: c1 :: rest => if c1 = ':' then ([c0, c1], rest) else ([], c0 :: c1 :: rest)
  | _ => ([], cs)

/-- The portion of `cs` up to and including the last separator
(`p[:i]` with `i = p.rfind(sep) + 1` in `posixpath.dirname`, and the
corresponding scan of `ntpath.split`). -/
def headToLastSep (isSep : Char → Bool) (cs : List Char) : List Char :=
  (cs.reverse.dropWhile (fun c => ! isSep c)).reverse

/-- Common core of `posixpath.dirname` and of the tail part of
`ntpath.dirname`: keep everything up to the last separator, then strip
trailing separators unless the head consists of separators only. -/
def dirnameList (isSep : Char → Bool) (cs : List Char) : List Char :=
  if (headToLastSep isSep cs).all isSep then headToLastSep isSep cs
  else ((headToLastSep isSep cs).reverse.dropWhile isSep).reverse

/-- Model of `posixpath.dirname`. -/
def posixDirnameL (cs : List Char) : List Char :=
  dirnameList (fun c => c == '/') cs

/-- Model of `ntpath.dirname` (split the drive, then split at the last
separator). -/
def ntDirnameL (cs : List Char) : List Char :=
  (ntSplitDrive cs).1 ++ dirnameList isNtSep (ntSplitDrive cs).2

/-- Model of `os.path.dirname`, dispatching on `os.name` the way CPython
binds `os.path` (`ntpath` when `os.name == "nt"`, `posixpath`
otherwise). -/
def dirName (osName : String) (p : String) : String :=
  if osName = "nt" then String.mk (ntDirnameL p.toList)
  else String.mk (posixDirnameL p.toList)

/-- Model of the binary step of `posixpath.join`. -/
def posixJoin2L (a b : List Char) : List Char :=
  if (b.head?.map (fun c => c == '/')).getD false then b
  else if a.isEmpty || (a.getLast?.map (fun c => c == '/')).getD false then a ++ b
  else a ++ '/' :: b

/-- Model of the binary step of `ntpath.join` for a second argument that
carries no drive letter (the only shape the source produces). -/
def ntJoin2L (a b : List Char) : List Char :=
  if (b.head?.map isNtSep).getD false then (ntSplitDrive a).1 ++ b
  else if (ntSplitDrive a).2 ≠ [] ∧
      ¬ (((ntSplitDrive a).2.getLast?.map isNtSep).getD false = true) then
    (ntSplitDrive a).1 ++ (ntSplitDrive a).2 ++ '\\' :: b
  else (ntSplitDrive a).1 ++ (ntSplitDrive a).2 ++ b

/-- Model of the binary `os.path.join`, dispatching on `os.name`. -/
def joinPath (osName a b : String) : String :=
  if osName = "nt" then String.mk (ntJoin2L a.toList b.toList)
  else String.mk (posixJoin2L a.toList b.toList)

/-- The process environment read by the snippet: `os.name`, the optional
`TEMP` variable, `os.getcwd()` and the optional `PESAPAL_LOG_PATH`
variable. -/
structure Env where
  osName : String
  temp : Option String
  cwd : String
  pesapalLogPath : Option String

/-- The file system as the snippet observes it: the directories that
exist, and which paths a `makedirs` call could newly create. -/
structure Fs where
  dirs : List String
  creatable : String → Bool

/-- Coarse model of `os.makedirs(d, exist_ok=True)`: the empty path
raises (`FileNotFoundError`), an existing directory is tolerated
(`exist_ok=True`), a creatable one is created, anything else raises
(`OSError` / `PermissionError`).  `none` models the raised exception.
This abstraction treats a failing call as leaving the file system
unchanged; the real `os.makedirs` creates ancestor directories
recursively and can raise after creating some of them.  `makedirsR`
below refines this model with the recursive ancestor creation; the
claims proved over `resolve` below concern which path is returned and
which branch is taken, not the failure granularity, and are stated over
this coarse model. -/
def makedirs (fs : Fs) (d : String) : Option Fs :=
  if d = "" then none
  else if d ∈ fs.dirs then some fs
  else if fs.creatable d then some ⟨d :: fs.dirs, fs.creatable⟩
  else none

/-- Source line 16:
`default_log_dir = '/tmp' if os.name != 'nt' else os.getenv('TEMP', os.getcwd())`. -/
def default_log_dir (e : Env) : String :=
  if e.osName ≠ "nt" then "/tmp" else e.temp.getD e.cwd

/-- Source lines 17-20: `log_path = os.getenv('PESAPAL_LOG_PATH',
os.path.join(default_log_dir, 'pesapal_logs', 'pesapal.log'))`. -/
def log_path (e : Env) : String :=
  e.pesapalLogPath.getD
    (joinPath e.osName (joinPath e.osName (default_log_dir e) "pesapal_logs") "pesapal.log")

/-- Source line 28: the recomputed fallback
`os.path.join('/tmp', 'pesapal_logs', 'pesapal.log')`. -/
def fallback_log_path (osName : String) : String :=
  joinPath osName (joinPath osName "/tmp" "pesapal_logs") "pesapal.log"

/-- Source lines 16-31 as one decision procedure: compute `log_path`,
try `os.makedirs(os.path.dirname(log_path), exist_ok=True)`; on failure,
if `log_path.startswith('/tmp')` re-raise, otherwise substitute the
fallback path and retry the directory creation once (a failure of the
retry also propagates).  The first component is the final `log_path`
(`none` when the exception propagates), the second the resulting file
system. -/
def resolve (e : Env) (fs : Fs) : Option String × Fs :=
  match makedirs fs (dirName e.osName (log_path e)) with
  | some fs2 => (some (log_path e), fs2)
  | none =>
    if strStartsWith (log_path e) "/tmp" = true then (none, fs)
    else
      match makedirs fs (dirName e.osName (fallback_log_path e.osName)) with
      | some fs2 => (some (fallback_log_path e.osName), fs2)
      | none => (none, fs)

/-- Refined model of CPython `os.makedirs(name, exist_ok=True)`: split
off the parent with `os.path.dirname`; when the parent is missing (and
is neither empty nor a fixed point of `dirname`, the stop conditions of
the CPython recursion), first create it recursively, then attempt the
single `os.mkdir(name)` (`fs.creatable` decides each individual `mkdir`
outcome).  A failing call KEEPS the ancestor directories it already
created: the returned file system is the possibly extended state and
the boolean reports success.  The fuel argument only bounds the
recursion; `dirname` yields a strictly shorter strict prefix at every
recursive step, so `length + 1` fuel is never exhausted.  Covers the
argument shapes the snippet produces: no trailing separator and no dot
components. -/
def makedirsAux (osName : String) (fs : Fs) (d : String) : Nat → Fs × Bool
  | 0 => (fs, false)
  | fuel + 1 =>
    if d = "" then (fs, false)
    else if d ∈ fs.dirs then (fs, true)
    else if dirName osName d = "" ∨ dirName osName d = d ∨ dirName osName d ∈ fs.dirs then
      if fs.creatable d then (⟨d :: fs.dirs, fs.creatable⟩, true) else (fs, false)
    else
      match makedirsAux osName fs (dirName osName d) fuel with
      | (fs2, false) => (fs2, false)
      | (fs2, true) =>
        if fs2.creatable d then (⟨d :: fs2.dirs, fs2.creatable⟩, true) else (fs2, false)

/-- `os.makedirs(d, exist_ok=True)` with recursive ancestor creation
(see `makedirsAux`). -/
def makedirsR (osName : String) (fs : Fs) (d : String) : Fs × Bool :=
  makedirsAux osName fs d (d.toList.length + 1)

/-- Lines 16-31 of the source again, identical control flow to
`resolve`, but over the refined `makedirsR`: a failing creation attempt
threads its possibly extended file system into the rest of the run
(exactly what happens on a real file system when `os.makedirs` raises
after creating ancestors). -/
def resolveR (e : Env) (fs : Fs) : Option String × Fs :=
  match makedirsR e.osName fs (dirName e.osName (log_path e)) with
  | (fs1, true) => (some (log_path e), fs1)
  | (fs1, false) =>
    if strStartsWith (log_path e) "/tmp" = true then (none, fs1)
    else
      match makedirsR e.osName fs1 (dirName e.osName (fallback_log_path e.osName)) with
      | (fs2, true) => (some (fallback_log_path e.osName), fs2)
      | (fs2, false) => (none, fs2)

/-- The outcomes of the `os.makedirs` calls performed by one `resolveR`
run, in order (`true` = the call succeeded).  Same control flow as
`resolveR`: one call when the first succeeds or when the re-raise
branch is taken, two calls when the fallback is retried. -/
def resolveRCalls (e : Env) (fs : Fs) : List Bool :=
  match makedirsR e.osName fs (dirName e.osName (log_path e)) with
  | (_, true) => [true]
  | (fs1, false) =>
    if strStartsWith (log_path e) "/tmp" = true then [false]
    else [false, (makedirsR e.osName fs1 (dirName e.osName (fallback_log_path e.osName))).2]

/-! ### Helper lemmas -/

theorem toList_mk (l : List Char) : (String.mk l).toList = l := rfl

theorem dropWhile_suffix_ex (p : Char → Bool) (l : List Char) :
    ∃ t, t ++ l.dropWhile p = l := by
  induction l with
  | nil => exact ⟨[], rfl⟩
  | cons a as ih =>
    by_cases h : p a = true
    · obtain ⟨t, ht⟩ := ih
      refine ⟨a :: t, ?_⟩
      rw [List.dropWhile_cons, if_pos h, List.cons_append, ht]
    · exact ⟨[], by rw [List.dropWhile_cons, if_neg h, List.nil_append]⟩

theorem isPrefixOf_iff (l1 l2 : List Char) :
    l1.isPrefixOf l2 = true ↔ ∃ t, l1 ++ t = l2 := by
  induction l1 generalizing l2 with
  | nil => simp [List.isPrefixOf]
  | cons a as ih =>
    cases l2 with
    | nil => simp [List.isPrefixOf]
    | cons b bs =>
      simp only [List.isPrefixOf, Bool.and_eq_true, beq_iff_eq, ih, List.cons_append,
        List.cons.injEq]
      constructor
      · rintro ⟨rfl, t, rfl⟩
        exact ⟨t, rfl, rfl⟩
      · rintro ⟨t, rfl, rfl⟩
        exact ⟨rfl, t, rfl⟩

theorem headToLastSep_prefix_ex (isSep : Char → Bool) (cs : List Char) :
    ∃ t, headToLastSep isSep cs ++ t = cs := by
  obtain ⟨t, ht⟩ := dropWhile_suffix_ex (fun c => ! isSep c) cs.reverse
  refine ⟨t.reverse, ?_⟩
  have : (t ++ cs.reverse.dropWhile (fun c => ! isSep c)).reverse = cs := by
    rw [ht, List.reverse_reverse]
  rw [List.reverse_append] at this
  exact this

theorem dirnameList_prefix_ex (isSep : Char → Bool) (cs : List Char) :
    ∃ t, dirnameList isSep cs ++ t = cs := by
  unfold dirnameList
  by_cases h : (headToLastSep isSep cs).all isSep = true
  · rw [if_pos h]; exact headToLastSep_prefix_ex isSep cs
  · rw [if_neg h]
    obtain ⟨t1, ht1⟩ := dropWhile_suffix_ex isSep (headToLastSep isSep cs).reverse
    obtain ⟨t2, ht2⟩ := headToLastSep_prefix_ex isSep cs
    refine ⟨t1.reverse ++ t2, ?_⟩
    have h3 : ((headToLastSep isSep cs).reverse.dropWhile isSep).reverse ++ t1.reverse
        = headToLastSep isSep cs := by
      have := congrArg List.reverse ht1
      rw [List.reverse_append, List.reverse_reverse] at this
      exact this
    rw [← List.append_assoc, h3, ht2]

theorem ntSplitDrive_eq (cs : List Char) :
    (ntSplitDrive cs).1 ++ (ntSplitDrive cs).2 = cs := by
  rcases cs with _ | ⟨c0, _ | ⟨c1, rest⟩⟩
  · rfl
  · rfl
  · by_cases h : c1 = ':'
    · simp [ntSplitDrive, h]
    · simp [ntSplitDrive, h]

theorem dirName_prefix_ex (osName p : String) :
    ∃ t, (dirName osName p).toList ++ t = p.toList := by
  unfold dirName
  by_cases h : osName = "nt"
  · rw [if_pos h, toList_mk]
    unfold ntDirnameL
    obtain ⟨t, ht⟩ := dirnameList_prefix_ex isNtSep (ntSplitDrive p.toList).2
    refine ⟨t, ?_⟩
    rw [List.append_assoc, ht, ntSplitDrive_eq]
  · rw [if_neg h, toList_mk]
    exact dirnameList_prefix_ex _ p.toList

theorem strStartsWith_trans {s d pre : String}
    (h1 : strStartsWith d pre = true) (h2 : ∃ t, d.toList ++ t = s.toList) :
    strStartsWith s pre = true := by
  unfold strStartsWith at h1 ⊢
  rw [isPrefixOf_iff] at h1 ⊢
  obtain ⟨t1, ht1⟩ := h1
  obtain ⟨t2, ht2⟩ := h2
  exact ⟨t1 ++ t2, by rw [← List.append_assoc, ht1, ht2]⟩

theorem fallback_dirname_sw (osName : String) :
    strStartsWith (dirName osName (fallback_log_path osName)) "/tmp" = true := by
  by_cases h : osName = "nt"
  · rw [h]; decide
  · unfold dirName fallback_log_path joinPath
    rw [if_neg h, if_neg h, if_neg h]
    decide

theorem dirname_ne_fallback (osName lp : String)
    (h : strStartsWith lp "/tmp" = false) :
    dirName osName lp ≠ dirName osName (fallback_log_path osName) := by
  intro hEq
  have h1 : strStartsWith (dirName osName lp) "/tmp" = true := by
    rw [hEq]; exact fallback_dirname_sw osName
  have h2 := strStartsWith_trans h1 (dirName_prefix_ex osName lp)
  rw [h] at h2
  exact Bool.noConfusion h2

theorem makedirs_some (fs fs2 : Fs) (d : String) (h : makedirs fs d = some fs2) :
    d ≠ "" ∧ d ∈ fs2.dirs ∧ fs2.creatable = fs.creatable
      ∧ (fs2 = fs ∨ fs2.dirs = d :: fs.dirs) := by
  unfold makedirs at h
  split_ifs at h with h1 h2 h3
  · injection h with h4
    subst h4
    exact ⟨h1, h2, rfl, Or.inl rfl⟩
  · injection h with h4
    subst h4
    exact ⟨h1, List.mem_cons_self _ _, rfl, Or.inr rfl⟩

theorem makedirs_none_iff (fs : Fs) (d : String) :
    makedirs fs d = none ↔ d = "" ∨ (d ∉ fs.dirs ∧ fs.creatable d = false) := by
  unfold makedirs
  split_ifs with h1 h2 h3 <;> simp_all

theorem makedirs_of_mem (fs : Fs) (d : String) (h1 : d ≠ "") (h2 : d ∈ fs.dirs) :
    makedirs fs d = some fs := by
  unfold makedirs
  rw [if_neg h1, if_pos h2]

/-! ### Dispatch lemmas for `resolve` -/

theorem resolve_of_makedirs_some (e : Env) (fs fs2 : Fs)
    (h : makedirs fs (dirName e.osName (log_path e)) = some fs2) :
    resolve e fs = (some (log_path e), fs2) := by
  unfold resolve
  rw [h]

theorem resolve_of_first_fail_tmp (e : Env) (fs : Fs)
    (h1 : makedirs fs (dirName e.osName (log_path e)) = none)
    (h2 : strStartsWith (log_path e) "/tmp" = true) :
    resolve e fs = (none, fs) := by
  unfold resolve
  rw [h1]
  simp [h2]

theorem resolve_of_fallback (e : Env) (fs fs2 : Fs)
    (h1 : makedirs fs (dirName e.osName (log_path e)) = none)
    (h2 : strStartsWith (log_path e) "/tmp" = false)
    (h3 : makedirs fs (dirName e.osName (fallback_log_path e.osName)) = some fs2) :
    resolve e fs = (some (fallback_log_path e.osName), fs2) := by
  unfold resolve
  rw [h1]
  simp [h2, h3]

theorem resolve_of_fallback_fail (e : Env) (fs : Fs)
    (h1 : makedirs fs (dirName e.osName (log_path e)) = none)
    (h2 : strStartsWith (log_path e) "/tmp" = false)
    (h3 : makedirs fs (dirName e.osName (fallback_log_path e.osName)) = none) :
    resolve e fs = (none, fs) := by
  unfold resolve
  rw [h1]
  simp [h2, h3]

theorem joinPath_posix {osName : String} (h : osName ≠ "nt") (a b : String) :
    joinPath osName a b = String.mk (posixJoin2L a.toList b.toList) := by
  unfold joinPath
  rw [if_neg h]

theorem dirName_posix {osName : String} (h : osName ≠ "nt") (p : String) :
    dirName osName p = String.mk (posixDirnameL p.toList) := by
  unfold dirName
  rw [if_neg h]

theorem fallback_log_path_posix {osName : String} (h : osName ≠ "nt") :
    fallback_log_path osName = "/tmp/pesapal_logs/pesapal.log" := by
  unfold fallback_log_path
  rw [joinPath_posix h, joinPath_posix h]
  decide

theorem fallback_dirname_posix {osName : String} (h : osName ≠ "nt") :
    dirName osName (fallback_log_path osName) = "/tmp/pesapal_logs" := by
  rw [fallback_log_path_posix h, dirName_posix h]
  decide

theorem resolve_posix_fallback_aux (e : Env) (fs : Fs)
    (hpos : e.osName ≠ "nt")
    (hfail : makedirs fs (dirName e.osName (log_path e)) = none)
    (hsw : strStartsWith (log_path e) "/tmp" = false)
    (hok : (makedirs fs "/tmp/pesapal_logs").isSome = true) :
    (resolve e fs).1 = some "/tmp/pesapal_logs/pesapal.log"
    ∧ "/tmp/pesapal_logs" ∈ (resolve e fs).2.dirs := by
  have hdn : dirName e.osName (fallback_log_path e.osName) = "/tmp/pesapal_logs" :=
    fallback_dirname_posix hpos
  rcases hmk : makedirs fs "/tmp/pesapal_logs" with _ | fs2
  · rw [hmk] at hok
    simp at hok
  · have h3 : makedirs fs (dirName e.osName (fallback_log_path e.osName)) = some fs2 := by
      rw [hdn]
      exact hmk
    rw [resolve_of_fallback e fs fs2 hfail hsw h3, fallback_log_path_posix hpos]
    exact ⟨rfl, (makedirs_some fs fs2 _ hmk).2.1⟩

/-! ### The claims -/

/-- C1, counterexample.  The claim quantifies over every environment in
which directory creation fails and the resolved path is not rooted under
(that is, does not denote a location inside) `/tmp`, and asserts that
`resolve` then recomputes `/tmp/pesapal_logs/pesapal.log` and, the retry
succeeding, returns it.  With `PESAPAL_LOG_PATH=/tmpdata/pesapal.log`
the path lies outside the `/tmp` directory (it does not even start with
`"/tmp/"`), creation of `/tmpdata` fails, and the fallback directory
`/tmp/pesapal_logs` is creatable, so the claim predicts the fallback
path is returned; but the code guard is the string-prefix test
`log_path.startswith('/tmp')`, which is true for `/tmpdata/...`, so the
error propagates and no path is returned at all. -/
theorem resolve_tmpdata_cex :
    strStartsWith "/tmpdata/pesapal.log" "/tmp/" = false
    ∧ (Fs.mk [] (fun d => d == "/tmp/pesapal_logs")).creatable "/tmp/pesapal_logs" = true
    ∧ (resolve (Env.mk "posix" none "/app" (some "/tmpdata/pesapal.log"))
        (Fs.mk [] (fun d => d == "/tmp/pesapal_logs"))).1 = none
    ∧ (resolve (Env.mk "posix" none "/app" (some "/tmpdata/pesapal.log"))
        (Fs.mk [] (fun d => d == "/tmp/pesapal_logs"))).1
        ≠ some "/tmp/pesapal_logs/pesapal.log" := by
  decide

/-- C1, amended.  On a POSIX-like host (`os.name ≠ "nt"`), whenever the
directory creation for the resolved path fails and the resolved path
does not start with the string `"/tmp"` (the guard of line 27 is a
string-prefix test, not a path-containment test), `resolve` discards the
path, recomputes the fixed fallback `/tmp/pesapal_logs/pesapal.log`,
retries the directory creation once, and when the retry succeeds it
returns the fallback path with `/tmp/pesapal_logs` created. -/
theorem resolve_posix_fallback (e : Env) (fs : Fs)
    (hpos : e.osName ≠ "nt")
    (hfail : makedirs fs (dirName e.osName (log_path e)) = none)
    (hsw : strStartsWith (log_path e) "/tmp" = false)
    (hok : (makedirs fs "/tmp/pesapal_logs").isSome = true) :
    (resolve e fs).1 = some "/tmp/pesapal_logs/pesapal.log"
    ∧ "/tmp/pesapal_logs" ∈ (resolve e fs).2.dirs :=
  resolve_posix_fallback_aux e fs hpos hfail hsw hok

/-- C1, witness for the amended theorem: `PESAPAL_LOG_PATH` points at
`/root/forbidden/pesapal.log`, `/root/forbidden` cannot be created but
`/tmp/pesapal_logs` can; `resolve` returns the fallback path and creates
its directory. -/
theorem resolve_posix_fallback_witness :
    (resolve (Env.mk "posix" none "/app" (some "/root/forbidden/pesapal.log"))
        (Fs.mk [] (fun d => d == "/tmp/pesapal_logs"))).1
      = some "/tmp/pesapal_logs/pesapal.log"
    ∧ "/tmp/pesapal_logs" ∈ (resolve (Env.mk "posix" none "/app" (some "/root/forbidden/pesapal.log"))
        (Fs.mk [] (fun d => d == "/tmp/pesapal_logs"))).2.dirs :=
  resolve_posix_fallback _ _ (by decide) rfl (by decide) (by decide)

/-- C2: whenever the first directory creation fails and either the
resolved path already starts with `"/tmp"` (no further fallback is
possible) or the fallback retry fails as well, `resolve` propagates the
error to the caller: it returns no path and leaves the file system
unchanged; no second-level fallback is attempted. -/
theorem resolve_error_propagation (e : Env) (fs : Fs)
    (hfail : makedirs fs (dirName e.osName (log_path e)) = none)
    (hcase : strStartsWith (log_path e) "/tmp" = true
      ∨ (strStartsWith (log_path e) "/tmp" = false
         ∧ makedirs fs (dirName e.osName (fallback_log_path e.osName)) = none)) :
    resolve e fs = (none, fs) := by
  rcases hcase with h2 | ⟨h2, h3⟩
  · exact resolve_of_first_fail_tmp e fs hfail h2
  · exact resolve_of_fallback_fail e fs hfail h2 h3

/-- C2, witness: `PESAPAL_LOG_PATH=/tmp/forbidden/pesapal.log` on a file
system where nothing can be created; `resolve` errors out and the file
system is untouched. -/
theorem resolve_error_propagation_witness :
    resolve (Env.mk "posix" none "/app" (some "/tmp/forbidden/pesapal.log"))
      (Fs.mk [] (fun _ => false))
    = (none, Fs.mk [] (fun _ => false)) :=
  resolve_error_propagation _ _ rfl (Or.inl (by decide))

/-- C3: when `PESAPAL_LOG_PATH` is set to a creatable (or already
existing) path `P`, `resolve` returns exactly `P` — the host default
computation is ignored — and afterwards `dirname(P)` exists on the file
system. -/
theorem resolve_env_override (e : Env) (fs : Fs) (P : String)
    (hset : e.pesapalLogPath = some P)
    (hok : (makedirs fs (dirName e.osName P)).isSome = true) :
    (resolve e fs).1 = some P ∧ dirName e.osName P ∈ (resolve e fs).2.dirs := by
  have hlp : log_path e = P := by
    simp [log_path, hset]
  rcases hmk : makedirs fs (dirName e.osName P) with _ | fs2
  · rw [hmk] at hok
    simp at hok
  · have h1 : makedirs fs (dirName e.osName (log_path e)) = some fs2 := by
      rw [hlp]
      exact hmk
    rw [resolve_of_makedirs_some e fs fs2 h1, hlp]
    exact ⟨rfl, (makedirs_some fs fs2 _ hmk).2.1⟩

/-- C3, witness: `PESAPAL_LOG_PATH=/var/log/pesapal.log` on a file
system where everything is creatable. -/
theorem resolve_env_override_witness :
    (resolve (Env.mk "posix" none "/app" (some "/var/log/pesapal.log"))
        (Fs.mk [] (fun _ => true))).1 = some "/var/log/pesapal.log"
    ∧ dirName "posix" "/var/log/pesapal.log"
        ∈ (resolve (Env.mk "posix" none "/app" (some "/var/log/pesapal.log"))
            (Fs.mk [] (fun _ => true))).2.dirs :=
  resolve_env_override _ _ _ rfl (by decide)

/-- C4: on a POSIX-like host with neither `PESAPAL_LOG_PATH` nor `TEMP`
set, when the default directory can be created (or exists) `resolve`
returns exactly `/tmp/pesapal_logs/pesapal.log` and `/tmp/pesapal_logs`
exists after the successful return. -/
theorem resolve_posix_default (e : Env) (fs : Fs)
    (hpos : e.osName ≠ "nt") (hno : e.pesapalLogPath = none) (_htmp : e.temp = none)
    (hok : (makedirs fs "/tmp/pesapal_logs").isSome = true) :
    (resolve e fs).1 = some "/tmp/pesapal_logs/pesapal.log"
    ∧ "/tmp/pesapal_logs" ∈ (resolve e fs).2.dirs := by
  have hlp : log_path e = "/tmp/pesapal_logs/pesapal.log" := by
    unfold log_path default_log_dir
    rw [hno, Option.getD_none, if_pos hpos, joinPath_posix hpos, joinPath_posix hpos]
    decide
  have hdn : dirName e.osName (log_path e) = "/tmp/pesapal_logs" := by
    rw [hlp, dirName_posix hpos]
    decide
  rcases hmk : makedirs fs "/tmp/pesapal_logs" with _ | fs2
  · rw [hmk] at hok
    simp at hok
  · have h1 : makedirs fs (dirName e.osName (log_path e)) = some fs2 := by
      rw [hdn]
      exact hmk
    rw [resolve_of_makedirs_some e fs fs2 h1, hlp]
    exact ⟨rfl, (makedirs_some fs fs2 _ hmk).2.1⟩

/-- C4, witness: the plain POSIX environment with no overrides and a
fully creatable file system. -/
theorem resolve_posix_default_witness :
    (resolve (Env.mk "posix" none "/app" none) (Fs.mk [] (fun _ => true))).1
      = some "/tmp/pesapal_logs/pesapal.log"
    ∧ "/tmp/pesapal_logs"
        ∈ (resolve (Env.mk "posix" none "/app" none) (Fs.mk [] (fun _ => true))).2.dirs :=
  resolve_posix_default _ _ (by decide) rfl rfl (by decide)

/-- C5: on a Windows-like host (`os.name = "nt"`) with no
`PESAPAL_LOG_PATH`, the default directory is the value of `TEMP` when it
is set and the current working directory otherwise; and with
`TEMP=C:\Users\x\AppData\Local\Temp`, when the directory creation
succeeds the returned path is
`C:\Users\x\AppData\Local\Temp\pesapal_logs\pesapal.log`. -/
theorem resolve_windows_default (e : Env) (fs : Fs)
    (hnt : e.osName = "nt") (hno : e.pesapalLogPath = none) :
    default_log_dir e = e.temp.getD e.cwd
    ∧ (e.temp = some "C:\\Users\\x\\AppData\\Local\\Temp" →
       (makedirs fs "C:\\Users\\x\\AppData\\Local\\Temp\\pesapal_logs").isSome = true →
       (resolve e fs).1
         = some "C:\\Users\\x\\AppData\\Local\\Temp\\pesapal_logs\\pesapal.log") := by
  constructor
  · unfold default_log_dir
    rw [if_neg (not_not_intro hnt)]
  · intro htemp hok
    have hlp : log_path e
        = "C:\\Users\\x\\AppData\\Local\\Temp\\pesapal_logs\\pesapal.log" := by
      unfold log_path default_log_dir joinPath
      rw [hno, Option.getD_none, hnt, htemp]
      simp only [Option.getD_some]
      decide
    have hdn : dirName e.osName (log_path e)
        = "C:\\Users\\x\\AppData\\Local\\Temp\\pesapal_logs" := by
      rw [hlp, hnt]
      decide
    rcases hmk : makedirs fs "C:\\Users\\x\\AppData\\Local\\Temp\\pesapal_logs" with _ | fs2
    · rw [hmk] at hok
      simp at hok
    · have h1 : makedirs fs (dirName e.osName (log_path e)) = some fs2 := by
        rw [hdn]
        exact hmk
      rw [resolve_of_makedirs_some e fs fs2 h1, hlp]

/-- C5, witness: the Windows environment of the claim with a fully
creatable file system. -/
theorem resolve_windows_default_witness :
    default_log_dir (Env.mk "nt" (some "C:\\Users\\x\\AppData\\Local\\Temp") "C:\\app" none)
      = "C:\\Users\\x\\AppData\\Local\\Temp"
    ∧ (resolve (Env.mk "nt" (some "C:\\Users\\x\\AppData\\Local\\Temp") "C:\\app" none)
        (Fs.mk [] (fun _ => true))).1
      = some "C:\\Users\\x\\AppData\\Local\\Temp\\pesapal_logs\\pesapal.log" :=
  ⟨by decide, (resolve_windows_default _ (Fs.mk [] (fun _ => true)) rfl rfl).2 rfl (by decide)⟩

/-- C6, counterexample.  The claim asserts that a failing first
creation attempt fails before any directory is made, so that a run
ending in an unrecoverable error leaves the file system unchanged.
`os.makedirs` creates ancestors recursively and can raise after
creating some of them.  Concretely: `PESAPAL_LOG_PATH =
/tmp/a/b/pesapal.log` with `/tmp` existing, `mkdir(/tmp/a)` succeeding
and `mkdir(/tmp/a/b)` failing (for instance a final component exceeding
`NAME_MAX`, or the disk quota exhausted between the two `mkdir` calls).
The first attempt fails having already created `/tmp/a`; the path
starts with `"/tmp"`, so line 31 re-raises: the run ends in an
unrecoverable error, yet `/tmp/a` — absent initially — now exists. -/
theorem resolveR_partial_creation_cex :
    (makedirsR "posix" (Fs.mk ["/tmp"] (fun d => d == "/tmp/a"))
        (dirName "posix" (log_path (Env.mk "posix" none "/app"
          (some "/tmp/a/b/pesapal.log"))))).2 = false
    ∧ "/tmp/a" ∈ (makedirsR "posix" (Fs.mk ["/tmp"] (fun d => d == "/tmp/a"))
        (dirName "posix" (log_path (Env.mk "posix" none "/app"
          (some "/tmp/a/b/pesapal.log"))))).1.dirs
    ∧ "/tmp/a" ∉ (Fs.mk ["/tmp"] (fun d => d == "/tmp/a")).dirs
    ∧ (resolveR (Env.mk "posix" none "/app" (some "/tmp/a/b/pesapal.log"))
        (Fs.mk ["/tmp"] (fun d => d == "/tmp/a"))).1 = none
    ∧ "/tmp/a" ∈ (resolveR (Env.mk "posix" none "/app" (some "/tmp/a/b/pesapal.log"))
        (Fs.mk ["/tmp"] (fun d => d == "/tmp/a"))).2.dirs := by
  decide

/-- C6, amended.  Per execution, `resolve` makes at most two directory
creation attempts and at most one of them succeeds: the retry happens
only after the first attempt has failed, and a path is returned exactly
when the last attempt succeeded.  A failing `os.makedirs` may however
already have created ancestor directories, so an unrecoverable error
does not imply that no directory was created.  Stated over `resolveR`,
the run with the recursive `os.makedirs` model, via its call trace
`resolveRCalls`. -/
theorem resolveR_at_most_one_creation (e : Env) (fs : Fs) :
    (resolveRCalls e fs).count true ≤ 1
    ∧ (resolveRCalls e fs).length ≤ 2
    ∧ ((resolveR e fs).1.isSome = true ↔ (resolveRCalls e fs).getLast? = some true) := by
  rcases h1 : makedirsR e.osName fs (dirName e.osName (log_path e)) with ⟨fs1, b1⟩
  cases b1 with
  | true =>
    simp [resolveR, resolveRCalls, h1]
  | false =>
    cases h2 : strStartsWith (log_path e) "/tmp" with
    | true =>
      simp [resolveR, resolveRCalls, h1, h2]
    | false =>
      rcases h3 : makedirsR e.osName fs1 (dirName e.osName (fallback_log_path e.osName))
        with ⟨fs2, b2⟩
      cases b2 with
      | true => simp [resolveR, resolveRCalls, h1, h2, h3]
      | false => simp [resolveR, resolveRCalls, h1, h2, h3]

/-- C6, witness for the amended theorem, at the partial-creation
scenario: the run makes one failing call (re-raise branch), so the
trace has no successful call and no path is returned. -/
theorem resolveR_at_most_one_creation_witness :
    (resolveRCalls (Env.mk "posix" none "/app" (some "/tmp/a/b/pesapal.log"))
        (Fs.mk ["/tmp"] (fun d => d == "/tmp/a"))).count true ≤ 1
    ∧ (resolveRCalls (Env.mk "posix" none "/app" (some "/tmp/a/b/pesapal.log"))
        (Fs.mk ["/tmp"] (fun d => d == "/tmp/a"))).length ≤ 2
    ∧ ((resolveR (Env.mk "posix" none "/app" (some "/tmp/a/b/pesapal.log"))
        (Fs.mk ["/tmp"] (fun d => d == "/tmp/a"))).1.isSome = true
      ↔ (resolveRCalls (Env.mk "posix" none "/app" (some "/tmp/a/b/pesapal.log"))
        (Fs.mk ["/tmp"] (fun d => d == "/tmp/a"))).getLast? = some true) :=
  resolveR_at_most_one_creation _ _

/-- C7: when `resolve` succeeds, running it again in the same
environment on the file system it produced yields the same path and does
not error, because `os.makedirs(..., exist_ok=True)` treats the already
existing directory as success. -/
theorem resolve_idempotent (e : Env) (fs : Fs) (p : String)
    (h : (resolve e fs).1 = some p) :
    (resolve e ((resolve e fs).2)).1 = some p := by
  cases h1 : makedirs fs (dirName e.osName (log_path e)) with
  | some fs2 =>
    rw [resolve_of_makedirs_some e fs fs2 h1] at h ⊢
    obtain ⟨hne, hmem, -, -⟩ := makedirs_some fs fs2 _ h1
    have h1b : makedirs fs2 (dirName e.osName (log_path e)) = some fs2 :=
      makedirs_of_mem fs2 _ hne hmem
    rw [resolve_of_makedirs_some e fs2 fs2 h1b]
    simpa using h
  | none =>
    cases h2 : strStartsWith (log_path e) "/tmp" with
    | true =>
      rw [resolve_of_first_fail_tmp e fs h1 h2] at h
      simp at h
    | false =>
      cases h3 : makedirs fs (dirName e.osName (fallback_log_path e.osName)) with
      | none =>
        rw [resolve_of_fallback_fail e fs h1 h2 h3] at h
        simp at h
      | some fs2 =>
        rw [resolve_of_fallback e fs fs2 h1 h2 h3] at h ⊢
        obtain ⟨hne, hmem, hcr, hd⟩ := makedirs_some fs fs2 _ h3
        have hdne : dirName e.osName (log_path e)
            ≠ dirName e.osName (fallback_log_path e.osName) :=
          dirname_ne_fallback e.osName (log_path e) h2
        have h1b : makedirs fs2 (dirName e.osName (log_path e)) = none := by
          rcases (makedirs_none_iff fs _).mp h1 with he | ⟨hnm, hcf⟩
          · exact (makedirs_none_iff fs2 _).mpr (Or.inl he)
          · refine (makedirs_none_iff fs2 _).mpr (Or.inr ⟨?_, by rw [hcr]; exact hcf⟩)
            rcases hd with rfl | hdirs
            · exact hnm
            · rw [hdirs]
              intro hm
              rcases List.mem_cons.mp hm with hEq | hm2
              · exact hdne hEq
              · exact hnm hm2
        have h3b : makedirs fs2 (dirName e.osName (fallback_log_path e.osName)) = some fs2 :=
          makedirs_of_mem fs2 _ hne hmem
        rw [resolve_of_fallback e fs2 fs2 h1b h2 h3b]
        simpa using h

/-- C7, witness: the default POSIX resolution run twice; the second run
returns the same path on the file system created by the first. -/
theorem resolve_idempotent_witness :
    (resolve (Env.mk "posix" none "/home" none) (Fs.mk [] (fun _ => true))).1
      = some "/tmp/pesapal_logs/pesapal.log"
    ∧ (resolve (Env.mk "posix" none "/home" none)
        ((resolve (Env.mk "posix" none "/home" none) (Fs.mk [] (fun _ => true))).2)).1
      = some "/tmp/pesapal_logs/pesapal.log" :=
  ⟨by decide, resolve_idempotent _ _ _ (by decide)⟩

/-- C8: when the resolved path merely starts with the four characters
`"/tmp"` (for example `/tmpdata/pesapal.log`, which is not inside the
`/tmp` directory), a directory-creation failure propagates immediately:
the guard of line 27 is the string-prefix test
`log_path.startswith('/tmp')`, so no fallback is attempted and the file
system is unchanged. -/
theorem resolve_tmp_prefix_no_fallback (e : Env) (fs : Fs) (P : String)
    (hset : e.pesapalLogPath = some P)
    (hsw : strStartsWith P "/tmp" = true)
    (hfail : makedirs fs (dirName e.osName P) = none) :
    resolve e fs = (none, fs) := by
  have hlp : log_path e = P := by
    simp [log_path, hset]
  have h1 : makedirs fs (dirName e.osName (log_path e)) = none := by
    rw [hlp]
    exact hfail
  have h2 : strStartsWith (log_path e) "/tmp" = true := by
    rw [hlp]
    exact hsw
  exact resolve_of_first_fail_tmp e fs h1 h2

/-- C8, witness: `PESAPAL_LOG_PATH=/tmpfoo/pesapal.log` — outside
`/tmp`, yet sharing the `"/tmp"` prefix — on a file system where the
fallback directory **is** creatable; the error still propagates and
nothing is created. -/
theorem resolve_tmp_prefix_no_fallback_witness :
    strStartsWith "/tmpfoo/pesapal.log" "/tmp" = true
    ∧ resolve (Env.mk "posix" none "/app" (some "/tmpfoo/pesapal.log"))
        (Fs.mk [] (fun d => d == "/tmp/pesapal_logs"))
      = (none, Fs.mk [] (fun d => d == "/tmp/pesapal_logs")) :=
  ⟨by decide, resolve_tmp_prefix_no_fallback _ _ _ rfl (by decide) rfl⟩

/-- C9: once `PESAPAL_LOG_PATH` is set, neither `TEMP` nor the current
working directory influences the outcome: two environments on the same
host kind with the same override resolve identically on any file
system. -/
theorem resolve_override_noninterference (e1 e2 : Env) (fs : Fs) (P : String)
    (hos : e1.osName = e2.osName)
    (h1 : e1.pesapalLogPath = some P) (h2 : e2.pesapalLogPath = some P) :
    resolve e1 fs = resolve e2 fs := by
  have hlp : log_path e1 = log_path e2 := by
    simp [log_path, h1, h2]
  unfold resolve
  rw [hlp, hos]

/-- C9, witness: two Windows environments sharing the override but
disagreeing on `TEMP` and on the working directory resolve to the same
result. -/
theorem resolve_override_noninterference_witness :
    resolve (Env.mk "nt" (some "C:\\TempA") "C:\\wd1" (some "D:\\logs\\pesapal.log"))
      (Fs.mk [] (fun _ => true))
    = resolve (Env.mk "nt" none "E:\\wd2" (some "D:\\logs\\pesapal.log"))
      (Fs.mk [] (fun _ => true)) :=
  resolve_override_noninterference _ _ _ _ rfl rfl rfl

theorem posixDirnameL_of_no_slash {l : List Char} (h : '/' ∉ l) :
    posixDirnameL l = [] := by
  have hdrop : l.reverse.dropWhile (fun c => ! (c == '/')) = [] := by
    rw [List.dropWhile_eq_nil_iff]
    intro x hx
    have hxf : x ∈ l := List.mem_reverse.mp hx
    simp only [Bool.not_eq_true', beq_eq_false_iff_ne, ne_eq]
    intro hEq
    exact h (hEq ▸ hxf)
  have hhead : headToLastSep (fun c => c == '/') l = [] := by
    unfold headToLastSep
    rw [hdrop]
    rfl
  unfold posixDirnameL dirnameList
  rw [hhead]
  rfl

theorem dirName_of_no_slash {osName f : String} (hpos : osName ≠ "nt")
    (h : '/' ∉ f.toList) :
    dirName osName f = "" := by
  rw [dirName_posix hpos, posixDirnameL_of_no_slash h]

theorem sw_tmp_false_of_no_slash {f : String} (h : '/' ∉ f.toList) :
    strStartsWith f "/tmp" = false := by
  cases hb : strStartsWith f "/tmp" with
  | false => rfl
  | true =>
    exfalso
    unfold strStartsWith at hb
    rw [isPrefixOf_iff] at hb
    obtain ⟨t, ht⟩ := hb
    apply h
    rw [← ht]
    exact List.mem_append.mpr (Or.inl (by decide))

/-- C10, counterexample.  The claim asserts that with a bare file name
in `PESAPAL_LOG_PATH` the resolver always falls back **and returns**
`/tmp/pesapal_logs/pesapal.log`.  On a file system where the fallback
directory cannot be created either, the retry fails and the error
propagates: no path is returned at all. -/
theorem resolve_bare_filename_cex :
    dirName "posix" "pesapal.log" = ""
    ∧ (resolve (Env.mk "posix" none "/app" (some "pesapal.log"))
        (Fs.mk [] (fun _ => false))).1 = none
    ∧ (resolve (Env.mk "posix" none "/app" (some "pesapal.log"))
        (Fs.mk [] (fun _ => false))).1 ≠ some "/tmp/pesapal_logs/pesapal.log" := by
  decide

/-- C10, amended.  On a POSIX-like host, when `PESAPAL_LOG_PATH` is a
bare file name with no directory component, `os.path.dirname` yields the
empty string, `os.makedirs('')` raises, and since the override does not
start with `"/tmp"` the resolver falls back; when the fallback directory
creation succeeds it returns `/tmp/pesapal_logs/pesapal.log` instead of
the override. -/
theorem resolve_bare_filename_fallback (e : Env) (fs : Fs) (f : String)
    (hpos : e.osName ≠ "nt")
    (hset : e.pesapalLogPath = some f)
    (hbare : '/' ∉ f.toList)
    (hok : (makedirs fs "/tmp/pesapal_logs").isSome = true) :
    dirName e.osName f = ""
    ∧ (resolve e fs).1 = some "/tmp/pesapal_logs/pesapal.log" := by
  have hlp : log_path e = f := by
    simp [log_path, hset]
  have hdn : dirName e.osName f = "" := dirName_of_no_slash hpos hbare
  have hfail : makedirs fs (dirName e.osName (log_path e)) = none := by
    rw [hlp, hdn]
    rfl
  have hsw : strStartsWith (log_path e) "/tmp" = false := by
    rw [hlp]
    exact sw_tmp_false_of_no_slash hbare
  exact ⟨hdn, (resolve_posix_fallback_aux e fs hpos hfail hsw hok).1⟩

/-- C10, witness for the amended theorem: `PESAPAL_LOG_PATH=pesapal.log`
with a creatable `/tmp`; the override is dropped and the fallback path
returned. -/
theorem resolve_bare_filename_fallback_witness :
    dirName (Env.mk "posix" none "/app" (some "pesapal.log")).osName "pesapal.log" = ""
    ∧ (resolve (Env.mk "posix" none "/app" (some "pesapal.log"))
        (Fs.mk [] (fun _ => true))).1 = some "/tmp/pesapal_logs/pesapal.log" :=
  resolve_bare_filename_fallback _ _ _ (by decide) rfl (by decide) (by decide)

end PesapalFix
